import Mathlib

set_option maxRecDepth 8000

/-!
Verification of the touken-repair-calc formula engine.

The definitions below are a shallow embedding of `src/src/script.ts`
(the TypeScript source of the repository).  JavaScript numbers are
modelled by exact arithmetic: integers by `ℤ`/`ℕ`, fractional constants
by `ℚ`, and square roots by `ℝ` (`Real.sqrt`).  `Math.round x` is
modelled as `⌊x + 1/2⌋` (ECMAScript rounds halves toward +∞), and
`Math.floor ∘ Math.sqrt` on natural numbers is `Nat.sqrt` (exact for the
tiny operands that occur here, far below 2^52).
-/

/-- The nine weapon identifiers of the catalog (`WeaponKey` in the source). -/
inductive Weapon where
  | tantou
  | wakizashi
  | uchigatana
  | uchigatana_rare4
  | tachi
  | ootachi
  | yari
  | naginata
  | tsurugi
deriving DecidableEq

/-- Upgrade stages (`StageKey` in the source). -/
inductive Stage where
  | initial
  | awakened
deriving DecidableEq

/-- Repair-formula regimes (`PhaseKey` in the source). -/
inductive Phase where
  | initial
  | awakened
  | bloom
deriving DecidableEq

/-- The four repair materials (`ResourceKind` in the source). -/
inductive ResourceKind where
  | charcoal
  | steel
  | coolant
  | whetstone
deriving DecidableEq

/-- The `WeaponDefinition` record of the source: display label and coefficient. -/
structure WeaponDefinition where
  label : String
  coefficient : ℚ

/-- The `weaponCatalog` table of the source. -/
def weaponCatalog : Weapon → WeaponDefinition
  | .tantou => ⟨"短刀", 1⟩
  | .wakizashi => ⟨"脇差", 1.5⟩
  | .uchigatana => ⟨"打刀", 2⟩
  | .uchigatana_rare4 => ⟨"打刀(レア3)", 4⟩
  | .tachi => ⟨"太刀", 4⟩
  | .ootachi => ⟨"大太刀", 6⟩
  | .yari => ⟨"槍", 2.5⟩
  | .naginata => ⟨"薙刀", 3⟩
  | .tsurugi => ⟨"剣", 3.5⟩

/-- Key order of the `weaponCatalog` object literal (JS objects preserve
insertion order, which is what `Object.keys(weaponCatalog)` yields). -/
def weaponCatalogOrder : List Weapon :=
  [.tantou, .wakizashi, .uchigatana, .uchigatana_rare4, .tachi, .ootachi,
   .yari, .naginata, .tsurugi]

/-- The `stageMaxLevels` table of the source. -/
def stageMaxLevels : Stage → ℤ
  | .initial => 99
  | .awakened => 199

/-- The `stageWeaponMap` table of the source: weapons permitted at each stage. -/
def stageWeaponMap : Stage → List Weapon
  | .initial =>
      [.tantou, .wakizashi, .uchigatana, .uchigatana_rare4, .tachi, .ootachi,
       .yari, .naginata, .tsurugi]
  | .awakened =>
      [.tantou, .wakizashi, .uchigatana, .uchigatana_rare4, .tachi, .ootachi,
       .yari, .naginata]

/-- The option list built by `populateWeaponOptions` (the spec's
`listWeapons`): the permitted weapons of a stage, in table order, each
paired with its catalog label. -/
def listWeapons (stage : Stage) : List (Weapon × String) :=
  (stageWeaponMap stage).map (fun w => (w, (weaponCatalog w).label))

/-- Model of `Math.round` of ECMAScript on an exact rational: `⌊x + 1/2⌋`. -/
def jsRound (x : ℚ) : ℤ := ⌊x + 1/2⌋

/-- The `determinePhase` function of the source. -/
def determinePhase (level : ℤ) (stage : Stage) : Phase :=
  if 100 ≤ level then .bloom
  else if stage = .awakened then .awakened else .initial

/-- The `aTerm` of the non-bloomed branch of `calculateRepairSeconds`:
`level <= 11 ? 0 : Math.floor(Math.sqrt(level - 11)) * 10 + 50`.
For an integer operand `Math.floor ∘ Math.sqrt` is exactly `Nat.sqrt`. -/
def aTermCode (level : ℤ) : ℤ :=
  if level ≤ 11 then 0 else (Nat.sqrt (level - 11).toNat : ℤ) * 10 + 50

/-- The cubic `g` computed in the bloom branch of `calculateRepairSeconds`,
with the source's exact decimal constants. -/
def gPoly (level : ℤ) : ℚ :=
  let l : ℚ := (level : ℚ)
  let levelSquared := l * l
  let levelCubed := levelSquared * l
  339.325408 + 5.5896113 * l + (-0.0386452486) * levelSquared +
    0.0000829599381 * levelCubed

/-- The `calculateRepairSeconds` function of the source (`src/src/script.ts`). -/
def calculateRepairSeconds (level lostHp : ℤ) (coefficient : ℚ)
    (phase : Phase) : ℤ :=
  if lostHp ≤ 0 then 30
  else if phase = .bloom then
    max 30 (jsRound (gPoly level * coefficient * (lostHp : ℚ) + 30))
  else
    max 30 (jsRound (((level * 5 + aTermCode level : ℤ) : ℚ) * coefficient *
      (lostHp : ℚ) + 30))

/-- Little-endian decimal digits of `n`, with explicit fuel (the fuel is
always instantiated with `n` itself, which suffices since `n / 10 < n`).
This is the digit stream produced by the usual repeated division that
`Number.prototype.toString` performs for nonnegative integers. -/
def digitsRevFuel : ℕ → ℕ → List ℕ
  | 0, _ => []
  | fuel + 1, n => if n = 0 then [] else n % 10 :: digitsRevFuel fuel (n / 10)

/-- Model of `Number.prototype.toString()` (base 10) on a nonnegative
integer: most-significant digit first, and `"0"` for zero. -/
def jsNatToString (n : ℕ) : String :=
  if n = 0 then "0"
  else String.mk (((digitsRevFuel n n).map Nat.digitChar).reverse)

/-- Model of `String.prototype.padStart(2, "0")`. -/
def padStart2 (s : String) : String :=
  if s.length < 2 then String.mk (List.replicate (2 - s.length) '0' ++ s.data)
  else s

/-- A rendered segment of `formatSeconds`: `seg.toString().padStart(2, "0")`. -/
def pad2 (n : ℕ) : String := padStart2 (jsNatToString n)

/-- The clamp at the head of `formatSeconds`:
`Math.max(30, Math.round(totalSeconds))`.  The result is at least 30, so
it is represented as a natural number. -/
def clampSeconds (totalSeconds : ℚ) : ℕ := (max 30 (jsRound totalSeconds)).toNat

/-- Computation `Math.floor(clamped / 3600)` for a nonnegative integer `clamped`. -/
def hoursOf (clamped : ℕ) : ℕ := clamped / 3600

/-- Computation `Math.floor((clamped % 3600) / 60)` for a nonnegative integer `clamped`. -/
def minutesOf (clamped : ℕ) : ℕ := clamped % 3600 / 60

/-- Computation `clamped % 60` for a nonnegative integer `clamped`. -/
def secondsOf (clamped : ℕ) : ℕ := clamped % 60

/-- The `formatSeconds` function of the source: clamp, decompose, zero-pad each segment
to width two, and join with `":"`. -/
def formatSeconds (totalSeconds : ℚ) : String :=
  let clamped := clampSeconds totalSeconds
  pad2 (hoursOf clamped) ++ ":" ++ pad2 (minutesOf clamped) ++ ":" ++
    pad2 (secondsOf clamped)

example : formatSeconds 3600 = "01:00:00" := by with_unfolding_all decide
example : formatSeconds 90 = "00:01:30" := by with_unfolding_all decide
example : formatSeconds 3661 = "01:01:01" := by with_unfolding_all decide
example : formatSeconds 29 = "00:00:30" := by with_unfolding_all decide
example : formatSeconds 360000 = "100:00:00" := by with_unfolding_all decide

/-- The `resourceBaseExpressions` table of the source: one textual `√<number>`
token per weapon per resource kind. -/
def resourceBaseExpressions (w : Weapon) (r : ResourceKind) : String :=
  match w, r with
  | .tantou, _ => "√16"
  | .wakizashi, .charcoal => "√11"
  | .wakizashi, .steel => "√16"
  | .wakizashi, .coolant => "√7"
  | .wakizashi, .whetstone => "√11"
  | .uchigatana, .coolant => "√4.34"
  | .uchigatana, _ => "√12.25"
  | .uchigatana_rare4, .charcoal => "√3.06"
  | .uchigatana_rare4, .steel => "√9"
  | .uchigatana_rare4, .coolant => "√9"
  | .uchigatana_rare4, .whetstone => "√1.56"
  | .tachi, .charcoal => "√3.06"
  | .tachi, .steel => "√8.75"
  | .tachi, .coolant => "√8.75"
  | .tachi, .whetstone => "√1.67"
  | .ootachi, .charcoal => "√1.36"
  | .ootachi, .steel => "√5.44"
  | .ootachi, .coolant => "√5.44"
  | .ootachi, .whetstone => "√0.69"
  | .yari, .coolant => "√7.84"
  | .yari, _ => "√31.36"
  | .naginata, .coolant => "√6.25"
  | .naginata, _ => "√25"
  | .tsurugi, _ => "√9"

/-- Result of `Number.parseFloat`: a finite value or an infinity
(`none` at the call site models `NaN`). -/
inductive JsVal where
  | num (q : ℚ)
  | inf (positive : Bool)
deriving DecidableEq

/-- Numeric value of a list of decimal digit characters, left to right. -/
def digitsToNat (l : List Char) : ℕ :=
  l.foldl (fun acc c => acc * 10 + (c.toNat - '0'.toNat)) 0

/-- The optional `ExponentPart` of a decimal literal (`e`/`E`, optional
sign, at least one digit).  Consumes nothing and yields exponent 0 when
no well-formed exponent follows, exactly as `parseFloat` does on input
such as `"12e"`. -/
def parseExponentPart (l : List Char) : ℤ × List Char :=
  match l with
  | c :: rest =>
    if c = 'e' ∨ c = 'E' then
      match rest with
      | '+' :: r2 =>
          match List.span Char.isDigit r2 with
          | (ds, r3) => if ds.isEmpty then (0, l) else ((digitsToNat ds : ℤ), r3)
      | '-' :: r2 =>
          match List.span Char.isDigit r2 with
          | (ds, r3) =>
              if ds.isEmpty then (0, l) else (-(digitsToNat ds : ℤ), r3)
      | _ =>
          match List.span Char.isDigit rest with
          | (ds, r2) => if ds.isEmpty then (0, l) else ((digitsToNat ds : ℤ), r2)
    else (0, l)
  | [] => (0, [])

/-- The unsigned mantissa of a decimal literal: `digits [. digits?]` or
`. digits`, returning its exact value and the unconsumed suffix, or
`none` when the input does not begin with a mantissa. -/
def parseMantissa (l : List Char) : Option (ℚ × List Char) :=
  match List.span Char.isDigit l with
  | (ip, r1) =>
    if ip.isEmpty then
      match r1 with
      | '.' :: r2 =>
        match List.span Char.isDigit r2 with
        | (fp, r3) =>
          if fp.isEmpty then none
          else some ((digitsToNat fp : ℚ) / ((10 ^ fp.length : ℕ) : ℚ), r3)
      | _ => none
    else
      match r1 with
      | '.' :: r2 =>
        match List.span Char.isDigit r2 with
        | (fp, r3) =>
          some ((digitsToNat ip : ℚ) +
            (digitsToNat fp : ℚ) / ((10 ^ fp.length : ℕ) : ℚ), r3)
      | _ => some ((digitsToNat ip : ℚ), r1)

/-- A signed `StrDecimalLiteral` after the optional sign has been
consumed: either the literal `Infinity` or a mantissa with an optional
exponent part. -/
def parseSignedNumber (l : List Char) (neg : Bool) :
    Option (JsVal × List Char) :=
  if l.take 8 = ("Infinity").data then some (.inf !neg, l.drop 8)
  else
    match parseMantissa l with
    | none => none
    | some (m, r1) =>
      match parseExponentPart r1 with
      | (e, r2) => some (.num ((if neg then -m else m) * (10 : ℚ) ^ e), r2)

/-- Model of `Number.parseFloat`, as value plus unconsumed suffix: skip leading
whitespace, read an optional sign, then the longest prefix forming a
`StrDecimalLiteral`; `none` models a `NaN` result. -/
def jsParseFloatAux (s : String) : Option (JsVal × List Char) :=
  match s.data.dropWhile Char.isWhitespace with
  | '+' :: rest => parseSignedNumber rest false
  | '-' :: rest => parseSignedNumber rest true
  | l => parseSignedNumber l false

/-- Model of `Number.parseFloat`, value only. -/
def jsParseFloat (s : String) : Option JsVal := (jsParseFloatAux s).map Prod.fst

/-- Model of `expression.replace("√", "")` for the one-character pattern `"√"`:
JS `String.prototype.replace` with a string pattern replaces only the
first occurrence. -/
def removeFirstRadical : List Char → List Char
  | [] => []
  | c :: rest => if c = '√' then rest else c :: removeFirstRadical rest

/-- Model of `Math.sqrt` on a `parseFloat` result.  Finite arguments map to
`Real.sqrt`; the infinite results of JS (`∞`, or `NaN` off the
nonnegative reals) have no counterpart in `ℝ` and are mapped to the
`Real.sqrt` junk value 0 — the static catalog and every claim stay in
the finite nonnegative fragment, where the model is exact. -/
noncomputable def jsSqrtVal : JsVal → ℝ
  | .num q => Real.sqrt (q : ℝ)
  | .inf _ => 0

/-- The `parseInnerRoot` function of the source: strip the first radical marker, trim,
`parseFloat`, throw on `NaN`, else take the square root. -/
noncomputable def parseInnerRoot (expression : String) : Except String ℝ :=
  let sanitized := (String.mk (removeFirstRadical expression.data)).trim
  match jsParseFloat sanitized with
  | none => Except.error ("Invalid resource expression: " ++ expression)
  | some v => Except.ok (jsSqrtVal v)

/-- The `precomputedResourceBases` table of the source: `parseInnerRoot` applied to
each table entry.  The error branch (which at runtime would be a thrown
exception during startup) is proved unreachable for the static table. -/
noncomputable def precomputedResourceBases (w : Weapon) (r : ResourceKind) : ℝ :=
  match parseInnerRoot (resourceBaseExpressions w r) with
  | .ok v => v
  | .error _ => 0

/-- Model of `Math.round` on a real operand. -/
noncomputable def jsRoundR (x : ℝ) : ℤ := ⌊x + 1/2⌋

/-- The `calculateResourceCost` function of the source, per resource kind. -/
noncomputable def calculateResourceCost (weapon : Weapon) (lostHp : ℤ)
    (coefficient : ℚ) (kind : ResourceKind) : ℤ :=
  if lostHp ≤ 0 then 0
  else max 0 (jsRoundR (precomputedResourceBases weapon kind *
    (coefficient : ℝ) * (lostHp : ℝ)))

/-- The key strings of the weapon catalog. -/
def weaponKeyOf : Weapon → String
  | .tantou => "tantou"
  | .wakizashi => "wakizashi"
  | .uchigatana => "uchigatana"
  | .uchigatana_rare4 => "uchigatana_rare4"
  | .tachi => "tachi"
  | .ootachi => "ootachi"
  | .yari => "yari"
  | .naginata => "naginata"
  | .tsurugi => "tsurugi"

/-- The `calculateResourceCost` function as invoked with a raw string key, modelling
the JS record lookup: a key absent from `precomputedResourceBases`
yields `undefined`, and the subsequent `base[kind]` member access throws
a `TypeError` (the `Except.error` branch).  The early `lostHp <= 0`
return precedes the lookup, as in the source. -/
noncomputable def calculateResourceCostJS (weapon : String) (lostHp : ℤ)
    (coefficient : ℚ) : Except String (ResourceKind → ℤ) :=
  if lostHp ≤ 0 then .ok fun _ => 0
  else
    match weaponCatalogOrder.find? (fun w => weaponKeyOf w = weapon) with
    | none =>
        .error ("TypeError: Cannot read properties of undefined (reading 'charcoal')")
    | some w =>
        .ok fun kind => max 0 (jsRoundR (precomputedResourceBases w kind *
          (coefficient : ℝ) * (lostHp : ℝ)))

/-- The numeric value embedded in the static expression string for each
`(weapon, resource)` pair, transcribed from the spec's table. -/
def embeddedValue (w : Weapon) (r : ResourceKind) : ℚ :=
  match w, r with
  | .tantou, _ => 16
  | .wakizashi, .charcoal => 11
  | .wakizashi, .steel => 16
  | .wakizashi, .coolant => 7
  | .wakizashi, .whetstone => 11
  | .uchigatana, .coolant => 4.34
  | .uchigatana, _ => 12.25
  | .uchigatana_rare4, .charcoal => 3.06
  | .uchigatana_rare4, .steel => 9
  | .uchigatana_rare4, .coolant => 9
  | .uchigatana_rare4, .whetstone => 1.56
  | .tachi, .charcoal => 3.06
  | .tachi, .steel => 8.75
  | .tachi, .coolant => 8.75
  | .tachi, .whetstone => 1.67
  | .ootachi, .charcoal => 1.36
  | .ootachi, .steel => 5.44
  | .ootachi, .coolant => 5.44
  | .ootachi, .whetstone => 0.69
  | .yari, .coolant => 7.84
  | .yari, _ => 31.36
  | .naginata, .coolant => 6.25
  | .naginata, _ => 25
  | .tsurugi, _ => 9

/-- The claim's non-bloomed `aTerm`, written with a real square root:
`0` if `level ≤ 11`, else `floor(sqrt(level − 11))·10 + 50`. -/
noncomputable def aTermSpec (level : ℤ) : ℤ :=
  if level ≤ 11 then 0 else ⌊Real.sqrt ((level : ℝ) - 11)⌋ * 10 + 50

/-- The claim's cubic `g`, written with powers. -/
def gSpec (level : ℤ) : ℚ :=
  339.325408 + 5.5896113 * (level : ℚ) - 0.0386452486 * (level : ℚ) ^ 2 +
    0.0000829599381 * (level : ℚ) ^ 3

/-- The repair-seconds formula exactly as the claim words it:
`round(g(level)·coefficient·injury) + 30` in the bloom phase, else
`round((level·5 + aTerm)·coefficient·injury) + 30`, each floored at 30. -/
noncomputable def repairSecondsSpec (level injury : ℤ) (coefficient : ℚ)
    (phase : Phase) : ℤ :=
  if phase = .bloom then
    max 30 (jsRound (gSpec level * coefficient * (injury : ℚ)) + 30)
  else
    max 30 (jsRound (((level * 5 + aTermSpec level : ℤ) : ℚ) * coefficient *
      (injury : ℚ)) + 30)

/-- The duration formatter exactly as the claim words it: take
`max(30, round(s))`, decompose that integer into hours, minutes and
seconds, and render the three fields zero-padded to width 2, joined by
colons. -/
def formatDurationSpec (totalSeconds : ℚ) : String :=
  let n := (max 30 (jsRound totalSeconds)).toNat
  pad2 (n / 3600) ++ ":" ++ pad2 (n / 60 % 60) ++ ":" ++ pad2 (n % 60)

example : jsParseFloat ("16") = some (.num 16) := by with_unfolding_all decide
example : jsParseFloat ("12.25") = some (.num 12.25) := by with_unfolding_all decide
example : jsParseFloat ("0.69") = some (.num 0.69) := by with_unfolding_all decide
example : jsParseFloat ("12abc") = some (.num 12) := by with_unfolding_all decide
example : jsParseFloat ("abc") = none := by with_unfolding_all decide
example : (String.mk (removeFirstRadical ("√16").data)).trim = "16" := by with_unfolding_all decide
example : jsParseFloat ("1e3") = some (.num 1000) := by with_unfolding_all decide
example : jsParseFloat ("-2.5e-1") = some (.num (-0.25)) := by with_unfolding_all decide
example : jsParseFloat ("Infinity") = some (.inf true) := by with_unfolding_all decide

lemma jsRound_add_thirty (x : ℚ) : jsRound (x + 30) = jsRound x + 30 := by
  unfold jsRound
  rw [show (x + 30 + 1/2 : ℚ) = (x + 1/2) + ((30 : ℤ) : ℚ) by push_cast; ring,
    Int.floor_add_int]

lemma gPoly_eq_gSpec (level : ℤ) : gPoly level = gSpec level := by
  simp only [gPoly, gSpec]
  ring

lemma aTermCode_eq_aTermSpec (level : ℤ) : aTermCode level = aTermSpec level := by
  unfold aTermCode aTermSpec
  by_cases h : level ≤ 11
  · simp [h]
  · simp only [if_neg h]
    have hn : ((level - 11).toNat : ℤ) = level - 11 := Int.toNat_of_nonneg (by omega)
    have h2 : (((level - 11).toNat : ℕ) : ℝ) = (level : ℝ) - 11 := by
      exact_mod_cast hn
    rw [← h2, Real.floor_real_sqrt_eq_nat_sqrt]

/-- Claim C1: for every integer level, every injury > 0, every coefficient
and every phase, `calculateRepairSeconds` computes exactly the claimed
formula: in the bloom phase `round(g(level)·coefficient·injury) + 30`
floored at 30 with the fitted cubic `g`, and otherwise
`round((level·5 + aTerm)·coefficient·injury) + 30` floored at 30 with
`aTerm = 0` for `level ≤ 11` and `floor(sqrt(level − 11))·10 + 50` above. -/
theorem repairSeconds_matches_claimed_formula (level injury : ℤ)
    (coefficient : ℚ) (phase : Phase) (h : 0 < injury) :
    calculateRepairSeconds level injury coefficient phase =
      repairSecondsSpec level injury coefficient phase := by
  unfold calculateRepairSeconds repairSecondsSpec
  rw [if_neg (by omega)]
  by_cases hb : phase = .bloom
  · rw [if_pos hb, if_pos hb, gPoly_eq_gSpec, jsRound_add_thirty]
  · rw [if_neg hb, if_neg hb, aTermCode_eq_aTermSpec, jsRound_add_thirty]

theorem repairSeconds_matches_claimed_formula_witness :
    (0 : ℤ) < 10 ∧
      calculateRepairSeconds 5 10 1 .initial = repairSecondsSpec 5 10 1 .initial :=
  ⟨by norm_num,
    repairSeconds_matches_claimed_formula 5 10 1 .initial (by norm_num)⟩

/-- Claim C3: `determinePhase` returns `bloom` iff `level ≥ 100`
(independent of the stage), `awakened` iff `level < 100` and the stage is
awakened, and `initial` otherwise. -/
theorem determinePhase_characterization (level : ℤ) (stage : Stage) :
    (determinePhase level stage = .bloom ↔ 100 ≤ level) ∧
    (determinePhase level stage = .awakened ↔ level < 100 ∧ stage = .awakened) ∧
    (determinePhase level stage = .initial ↔ level < 100 ∧ stage = .initial) := by
  unfold determinePhase
  by_cases h : 100 ≤ level
  · cases stage <;> simp [h] <;> try omega
  · cases stage <;> simp [h] <;> try omega

/-- Claim C4: `calculateRepairSeconds` returns exactly 30 whenever
`injury ≤ 0`, and its result is always an integer at least 30. -/
theorem repairSeconds_min_thirty (level injury : ℤ) (coefficient : ℚ)
    (phase : Phase) :
    (injury ≤ 0 → calculateRepairSeconds level injury coefficient phase = 30) ∧
    30 ≤ calculateRepairSeconds level injury coefficient phase := by
  constructor
  · intro h
    unfold calculateRepairSeconds
    rw [if_pos h]
  · unfold calculateRepairSeconds
    by_cases h : injury ≤ 0
    · rw [if_pos h]
    · rw [if_neg h]
      by_cases hb : phase = .bloom
      · rw [if_pos hb]; exact le_max_left _ _
      · rw [if_neg hb]; exact le_max_left _ _

theorem repairSeconds_min_thirty_witness :
    (-1 : ℤ) ≤ 0 ∧ calculateRepairSeconds 42 (-1) 2 .bloom = 30 :=
  ⟨by norm_num, (repairSeconds_min_thirty 42 (-1) 2 .bloom).1 (by norm_num)⟩

/-- Claim C6: `stageMaxLevels` maps initial to 99 and awakened to 199;
`listWeapons` yields all nine catalog weapons in catalog order for the
initial stage and the same sequence with exactly `tsurugi` removed for
the awakened stage; and every key it returns for a stage is permitted at
that stage. -/
theorem stage_tables_characterization :
    stageMaxLevels .initial = 99 ∧ stageMaxLevels .awakened = 199 ∧
    listWeapons .initial =
      weaponCatalogOrder.map (fun w => (w, (weaponCatalog w).label)) ∧
    listWeapons .awakened =
      (weaponCatalogOrder.filter (fun w => w ≠ .tsurugi)).map
        (fun w => (w, (weaponCatalog w).label)) ∧
    ∀ stage : Stage, ∀ p ∈ listWeapons stage, p.1 ∈ stageWeaponMap stage := by
  refine ⟨rfl, rfl, by decide, by decide, ?_⟩
  intro stage
  cases stage <;> decide

theorem stage_tables_characterization_witness :
    (Weapon.tantou, (weaponCatalog Weapon.tantou).label) ∈ listWeapons .initial ∧
      (Weapon.tantou, (weaponCatalog Weapon.tantou).label).1 ∈
        stageWeaponMap .initial :=
  ⟨by decide,
    stage_tables_characterization.2.2.2.2 .initial
      (Weapon.tantou, (weaponCatalog Weapon.tantou).label) (by decide)⟩

lemma gPoly_nonneg (level : ℤ) (h : 0 ≤ level) : 0 ≤ gPoly level := by
  have hl : (0 : ℚ) ≤ (level : ℚ) := by exact_mod_cast h
  have hr : (0 : ℚ) ≤ 5.5896113 + (-0.0386452486) * (level : ℚ) +
      0.0000829599381 * (level : ℚ) ^ 2 := by
    nlinarith [sq_nonneg ((0.0000829599381 : ℚ) * 2 * (level : ℚ) +
      (-0.0386452486))]
  have hshape : gPoly level = 339.325408 + (level : ℚ) *
      (5.5896113 + (-0.0386452486) * (level : ℚ) +
        0.0000829599381 * (level : ℚ) ^ 2) := by
    simp only [gPoly]
    ring
  nlinarith [mul_nonneg hl hr]

lemma aTermCode_nonneg (level : ℤ) : 0 ≤ aTermCode level := by
  unfold aTermCode
  split_ifs
  · omega
  · positivity

/-- Claim C7: for a fixed level in the valid range, a positive
coefficient and a fixed phase, `calculateRepairSeconds` is monotonically
non-decreasing in the injury argument. -/
theorem repairSeconds_mono_in_injury (level : ℤ) (coefficient : ℚ)
    (phase : Phase) (i1 i2 : ℤ) (hlvl1 : 1 ≤ level) (hlvl2 : level ≤ 199)
    (hc : 0 < coefficient) (h12 : i1 ≤ i2) :
    calculateRepairSeconds level i1 coefficient phase ≤
      calculateRepairSeconds level i2 coefficient phase := by
  unfold calculateRepairSeconds
  by_cases hi2 : i2 ≤ 0
  · rw [if_pos (by omega : i1 ≤ 0), if_pos hi2]
  · rw [if_neg hi2]
    by_cases hi1 : i1 ≤ 0
    · rw [if_pos hi1]
      by_cases hb : phase = .bloom
      · rw [if_pos hb]; exact le_max_left _ _
      · rw [if_neg hb]; exact le_max_left _ _
    · rw [if_neg hi1]
      have hKey : ∀ K : ℚ, 0 ≤ K →
          max 30 (jsRound (K * coefficient * (i1 : ℚ) + 30)) ≤
            max 30 (jsRound (K * coefficient * (i2 : ℚ) + 30)) := by
        intro K hK
        apply max_le_max (le_refl 30)
        unfold jsRound
        apply Int.floor_le_floor
        have hi : (i1 : ℚ) ≤ (i2 : ℚ) := by exact_mod_cast h12
        have := mul_le_mul_of_nonneg_left hi (mul_nonneg hK hc.le)
        nlinarith
      by_cases hb : phase = .bloom
      · rw [if_pos hb, if_pos hb]
        exact hKey _ (gPoly_nonneg level (by omega))
      · rw [if_neg hb, if_neg hb]
        apply hKey
        have := aTermCode_nonneg level
        exact_mod_cast (by omega : (0 : ℤ) ≤ level * 5 + aTermCode level)

theorem repairSeconds_mono_in_injury_witness :
    (1 : ℤ) ≤ 50 ∧ (50 : ℤ) ≤ 199 ∧ (0 : ℚ) < 1 ∧ (3 : ℤ) ≤ 5 ∧
      calculateRepairSeconds 50 3 1 .initial ≤
        calculateRepairSeconds 50 5 1 .initial :=
  ⟨by norm_num, by norm_num, by norm_num, by norm_num,
    repairSeconds_mono_in_injury 50 1 .initial 3 5 (by norm_num) (by norm_num)
      (by norm_num) (by norm_num)⟩

lemma precomputed_eq_of_parse (w : Weapon) (r : ResourceKind) (q : ℚ)
    (h : jsParseFloat
        ((String.mk (removeFirstRadical (resourceBaseExpressions w r).data)).trim) =
      some (.num q)) :
    precomputedResourceBases w r = Real.sqrt ((q : ℚ) : ℝ) := by
  unfold precomputedResourceBases parseInnerRoot
  simp only [h, jsSqrtVal]

/-- For every table entry the cached base equals the square root of the
numeric value embedded in its expression string: the parsing pipeline is
evaluated on each of the 36 static strings. -/
lemma precomputedResourceBases_eq (w : Weapon) (r : ResourceKind) :
    precomputedResourceBases w r = Real.sqrt ((embeddedValue w r : ℚ) : ℝ) := by
  cases w <;> cases r <;>
    exact precomputed_eq_of_parse _ _ _ (by with_unfolding_all decide)

/-- Claim C2: for every catalog weapon and coefficient,
`calculateResourceCost` returns all zeros when `injury ≤ 0`, and for
positive injury each resource cost equals
`max(0, round(sqrt(embedded value)·coefficient·injury))`; the function
takes no level, stage or phase argument, so the result cannot depend on
them. -/
theorem resourceCost_formula (w : Weapon) (injury : ℤ) (coefficient : ℚ) :
    (injury ≤ 0 → ∀ r, calculateResourceCost w injury coefficient r = 0) ∧
    (0 < injury → ∀ r, calculateResourceCost w injury coefficient r =
      max 0 (jsRoundR (Real.sqrt ((embeddedValue w r : ℚ) : ℝ) *
        (coefficient : ℝ) * (injury : ℝ)))) := by
  constructor
  · intro h r
    unfold calculateResourceCost
    rw [if_pos h]
  · intro h r
    unfold calculateResourceCost
    rw [if_neg (by omega), precomputedResourceBases_eq]

theorem resourceCost_formula_witness :
    (0 : ℤ) < 10 ∧ calculateResourceCost .tantou 10 1 .charcoal = 40 := by
  refine ⟨by norm_num, ?_⟩
  have h := (resourceCost_formula .tantou 10 1).2 (by norm_num) .charcoal
  rw [h]
  rw [show ((embeddedValue Weapon.tantou ResourceKind.charcoal : ℚ) : ℝ) = 4 ^ 2 by
    norm_num [embeddedValue], Real.sqrt_sq (by norm_num)]
  unfold jsRoundR
  push_cast
  norm_num

/-- Claim C9: an unknown weapon key reaching `calculateResourceCost` with
positive injury fails — the record lookup yields `undefined` and the
member access throws — rather than silently defaulting to a value; no
catalog weapon owns the key `"katana"`. -/
theorem unknown_weapon_key_fails :
    calculateResourceCostJS ("katana") 5 1 =
      Except.error
        ("TypeError: Cannot read properties of undefined (reading 'charcoal')") ∧
    ∀ w : Weapon, (weaponKeyOf w == "katana") = false := by
  constructor
  · unfold calculateResourceCostJS
    rw [if_neg (by norm_num)]
    rw [show weaponCatalogOrder.find?
        (fun w => weaponKeyOf w = "katana") = none by decide]
  · intro w
    cases w <;> decide

/-- Head test used by the mantissa grammar: is the first character a
decimal digit. -/
def firstIsDigit : List Char → Bool
  | d :: _ => d.isDigit
  | [] => false

/-- The mantissa grammar accepts a prefix of `l`: it starts with a digit,
or with a dot followed by a digit. -/
def startsWithMantissa : List Char → Bool
  | [] => false
  | c :: rest => c.isDigit || (c == '.' && firstIsDigit rest)

/-- A `StrDecimalLiteral` (sign already consumed) begins here: an
`Infinity` literal or a mantissa. -/
def startsWithNumber (l : List Char) : Bool :=
  (l.take 8 == ("Infinity").data) || startsWithMantissa l

/-- The spec-side error criterion for `parseBase`: after whitespace and
an optional sign, the text begins with a valid base-10 number. -/
def hasNumericStart (s : String) : Bool :=
  match s.data.dropWhile Char.isWhitespace with
  | '+' :: rest => startsWithNumber rest
  | '-' :: rest => startsWithNumber rest
  | l => startsWithNumber l

/-- The claim's reading of a valid remainder: the whole remaining text is
one finite decimal number (the parse consumes every character). -/
def isValidNumberString (s : String) : Bool :=
  match jsParseFloatAux s with
  | some (.num _, []) => true
  | _ => false


lemma parseMantissa_isSome (l : List Char) :
    (parseMantissa l).isSome = startsWithMantissa l := by
  cases l with
  | nil => rfl
  | cons c rest =>
    unfold parseMantissa startsWithMantissa
    rw [List.span_eq_take_drop, List.takeWhile_cons, List.dropWhile_cons]
    by_cases hc : c.isDigit
    · simp only [hc, if_true, List.isEmpty_cons, Bool.false_eq_true, if_false]
      split <;> simp
    · simp only [hc, Bool.false_eq_true, if_false, List.isEmpty_nil, if_true,
        Bool.false_or]
      by_cases hdot : c = '.'
      · subst hdot
        cases rest with
        | nil => simp [List.span_eq_take_drop, firstIsDigit]
        | cons d r3 =>
          by_cases hd : d.isDigit <;>
            simp [List.span_eq_take_drop, List.takeWhile_cons, hd, firstIsDigit]
      · split <;> simp_all [firstIsDigit]

lemma parseSignedNumber_isSome (l : List Char) (neg : Bool) :
    (parseSignedNumber l neg).isSome = startsWithNumber l := by
  unfold parseSignedNumber startsWithNumber
  by_cases hInf : l.take 8 = ("Infinity").data
  · simp [hInf]
  · rw [if_neg hInf]
    rw [show (l.take 8 == ("Infinity").data) = false by simpa using hInf]
    rw [Bool.false_or, ← parseMantissa_isSome]
    cases h : parseMantissa l with
    | none => simp
    | some p =>
      rcases p with ⟨m, r1⟩
      rcases hpe : parseExponentPart r1 with ⟨e, r2⟩
      simp [hpe]

lemma jsParseFloat_isSome (s : String) :
    (jsParseFloat s).isSome = hasNumericStart s := by
  unfold jsParseFloat jsParseFloatAux hasNumericStart
  split <;> simp [parseSignedNumber_isSome]

lemma parseInnerRoot_ok (s : String) (q : ℚ)
    (h : jsParseFloat ((String.mk (removeFirstRadical s.data)).trim) =
      some (.num q)) :
    parseInnerRoot s = Except.ok (Real.sqrt ((q : ℚ) : ℝ)) := by
  unfold parseInnerRoot
  simp only [h, jsSqrtVal]

lemma parseInnerRoot_error (s : String)
    (h : jsParseFloat ((String.mk (removeFirstRadical s.data)).trim) = none) :
    parseInnerRoot s = Except.error ("Invalid resource expression: " ++ s) := by
  unfold parseInnerRoot
  simp only [h]

/-- Claim C8 counterexample: for the input `"√12abc"` the remaining text
`"12abc"` is not a valid base-10 number, yet `parseInnerRoot` raises no
error — `parseFloat` accepts the numeric prefix `12` — so "errors if and
only if the remainder is not a valid number" fails in its only-if
direction. -/
theorem parseBase_error_iff_counterexample :
    isValidNumberString
        ((String.mk (removeFirstRadical ("√12abc").data)).trim) = false ∧
      parseInnerRoot ("√12abc") = Except.ok (Real.sqrt ((12 : ℚ) : ℝ)) := by
  constructor
  · with_unfolding_all decide
  · exact parseInnerRoot_ok _ 12 (by with_unfolding_all decide)

/-- Claim C8 (amended): `parseInnerRoot` raises its
`Invalid resource expression` error — identifying the offending input
string — precisely when the text remaining after stripping the radical
marker and surrounding whitespace does not begin with a valid base-10
number; and whenever that remainder is entirely a single finite decimal
number, it returns the number's square root without error. -/
theorem parseBase_error_characterization (s : String) :
    ((parseInnerRoot s).isOk =
      hasNumericStart ((String.mk (removeFirstRadical s.data)).trim)) ∧
    (hasNumericStart ((String.mk (removeFirstRadical s.data)).trim) = false →
      parseInnerRoot s = Except.error ("Invalid resource expression: " ++ s)) ∧
    (∀ q : ℚ,
      jsParseFloatAux ((String.mk (removeFirstRadical s.data)).trim) =
          some (.num q, []) →
        parseInnerRoot s = Except.ok (Real.sqrt ((q : ℚ) : ℝ))) := by
  refine ⟨?_, ?_, ?_⟩
  · rw [← jsParseFloat_isSome]
    cases h : jsParseFloat ((String.mk (removeFirstRadical s.data)).trim) with
    | none => rw [parseInnerRoot_error s h]; rfl
    | some v =>
      unfold parseInnerRoot
      simp only [h]
      rfl
  · intro h
    apply parseInnerRoot_error
    have hs := jsParseFloat_isSome ((String.mk (removeFirstRadical s.data)).trim)
    rw [h] at hs
    exact Option.not_isSome_iff_eq_none.mp (by simp [hs])
  · intro q h
    apply parseInnerRoot_ok
    unfold jsParseFloat
    rw [h]
    rfl

theorem parseBase_error_characterization_witness :
    jsParseFloatAux ((String.mk (removeFirstRadical ("√16").data)).trim) =
        some (.num 16, []) ∧
      parseInnerRoot ("√16") = Except.ok (Real.sqrt ((16 : ℚ) : ℝ)) := by
  refine ⟨by with_unfolding_all decide, ?_⟩
  exact (parseBase_error_characterization ("√16")).2.2 16
    (by with_unfolding_all decide)

/-- Value of a little-endian digit list. -/
def digitsVal : List ℕ → ℕ
  | [] => 0
  | d :: t => d + 10 * digitsVal t

lemma digitsRevFuel_zero (f : ℕ) : digitsRevFuel f 0 = [] := by
  cases f <;> simp [digitsRevFuel]

lemma digitsRevFuel_cons (f n : ℕ) (h : n ≠ 0) :
    digitsRevFuel (f + 1) n = n % 10 :: digitsRevFuel f (n / 10) := by
  simp [digitsRevFuel, h]

lemma digitsVal_digitsRevFuel : ∀ f n, n ≤ f →
    digitsVal (digitsRevFuel f n) = n := by
  intro f
  induction f with
  | zero =>
    intro n h
    have : n = 0 := by omega
    subst this
    rfl
  | succ f ih =>
    intro n h
    by_cases h0 : n = 0
    · subst h0; rfl
    · rw [digitsRevFuel_cons f n h0]
      simp only [digitsVal]
      rw [ih (n / 10) (by omega)]
      omega

lemma digitsRevFuel_lt_ten : ∀ f n d, d ∈ digitsRevFuel f n → d < 10 := by
  intro f
  induction f with
  | zero => intro n d hd; simp [digitsRevFuel] at hd
  | succ f ih =>
    intro n d hd
    by_cases h0 : n = 0
    · subst h0; simp [digitsRevFuel] at hd
    · rw [digitsRevFuel_cons f n h0] at hd
      rcases List.mem_cons.mp hd with h | h
      · omega
      · exact ih _ _ h

lemma digitsVal_lt_pow (l : List ℕ) (h : ∀ d ∈ l, d < 10) :
    digitsVal l < 10 ^ l.length := by
  induction l with
  | nil => simp [digitsVal]
  | cons d t ih =>
    have hd := h d (List.mem_cons_self d t)
    have ht := ih (fun x hx => h x (List.mem_cons_of_mem _ hx))
    simp only [digitsVal, List.length_cons, pow_succ]
    omega

lemma pow_le_of_digitsRevFuel : ∀ f n, 1 ≤ n → n ≤ f →
    10 ^ ((digitsRevFuel f n).length - 1) ≤ n := by
  intro f
  induction f with
  | zero => intro n h1 h2; omega
  | succ f ih =>
    intro n h1 h2
    rw [digitsRevFuel_cons f n (by omega)]
    by_cases h10 : n < 10
    · rw [show n / 10 = 0 by omega, digitsRevFuel_zero]
      simpa using h1
    · have hq1 : 1 ≤ n / 10 := by omega
      have hq2 : n / 10 ≤ f := by omega
      have hdiv := ih (n / 10) hq1 hq2
      have hne : digitsRevFuel f (n / 10) ≠ [] := by
        intro hnil
        have := digitsVal_digitsRevFuel f (n / 10) hq2
        rw [hnil] at this
        simp [digitsVal] at this
        omega
      have hL1 : 1 ≤ (digitsRevFuel f (n / 10)).length :=
        List.length_pos.mpr hne
      simp only [List.length_cons, Nat.add_sub_cancel]
      rw [show (digitsRevFuel f (n / 10)).length =
        ((digitsRevFuel f (n / 10)).length - 1) + 1 by omega, pow_succ]
      omega

lemma string_eq_of_data {s t : String} (h : s.data = t.data) : s = t := by
  cases s
  cases t
  exact congrArg String.mk h

lemma jsNatToString_data (n : ℕ) (h : n ≠ 0) :
    (jsNatToString n).data = ((digitsRevFuel n n).map Nat.digitChar).reverse := by
  unfold jsNatToString
  rw [if_neg h]

lemma jsNatToString_length (n : ℕ) (h : n ≠ 0) :
    (jsNatToString n).length = (digitsRevFuel n n).length := by
  show (jsNatToString n).data.length = _
  rw [jsNatToString_data n h]
  simp

lemma jsNatToString_length_le_two (n : ℕ) (h : n < 100) :
    (jsNatToString n).length ≤ 2 := by
  by_cases h0 : n = 0
  · subst h0; decide
  · rw [jsNatToString_length n h0]
    have hlow := pow_le_of_digitsRevFuel n n (by omega) le_rfl
    by_contra hc
    push_neg at hc
    have : 10 ^ 2 ≤ 10 ^ ((digitsRevFuel n n).length - 1) :=
      Nat.pow_le_pow_right (by norm_num) (by omega)
    omega

lemma three_le_jsNatToString_length (n : ℕ) (h : 100 ≤ n) :
    3 ≤ (jsNatToString n).length := by
  have h0 : n ≠ 0 := by omega
  rw [jsNatToString_length n h0]
  have hval := digitsVal_digitsRevFuel n n le_rfl
  have hlt := digitsVal_lt_pow (digitsRevFuel n n)
    (fun d hd => digitsRevFuel_lt_ten n n d hd)
  by_contra hc
  push_neg at hc
  have : 10 ^ (digitsRevFuel n n).length ≤ 10 ^ 2 :=
    Nat.pow_le_pow_right (by norm_num) (by omega)
  omega

lemma map_digitChar_inj : ∀ l1 l2 : List ℕ, (∀ d ∈ l1, d < 10) →
    (∀ d ∈ l2, d < 10) → l1.map Nat.digitChar = l2.map Nat.digitChar →
    l1 = l2 := by
  intro l1
  induction l1 with
  | nil => intro l2 _ _ h; cases l2 <;> simp_all
  | cons d t ih =>
    intro l2 h1 h2 h
    cases l2 with
    | nil => simp at h
    | cons e t2 =>
      simp only [List.map_cons, List.cons.injEq] at h
      have hinj : ∀ x < 10, ∀ y < 10, Nat.digitChar x = Nat.digitChar y →
          x = y := by decide
      have hde : d = e :=
        hinj d (h1 d (List.mem_cons_self d t)) e (h2 e (List.mem_cons_self e t2))
          h.1
      have ht : t = t2 := ih t2 (fun x hx => h1 x (List.mem_cons_of_mem _ hx))
        (fun x hx => h2 x (List.mem_cons_of_mem _ hx)) h.2
      rw [hde, ht]

lemma jsNatToString_eq_zero_str (n : ℕ) (h : jsNatToString n = "0") : n = 0 := by
  by_contra h0
  have hd := congrArg String.data h
  rw [jsNatToString_data n h0] at hd
  have : (digitsRevFuel n n).map Nat.digitChar = ['0'] := by
    have := congrArg List.reverse hd
    simpa using this
  have hsingle : ∃ d, (digitsRevFuel n n) = [d] := by
    have hlen := congrArg List.length this
    simp at hlen
    exact List.length_eq_one.mp hlen
  obtain ⟨d, hdig⟩ := hsingle
  rw [hdig] at this
  simp only [List.map_cons, List.map_nil, List.cons.injEq, and_true] at this
  have hd10 : d < 10 :=
    digitsRevFuel_lt_ten n n d (by rw [hdig]; exact List.mem_cons_self d [])
  have hdzero : d = 0 := by
    have : ∀ x < 10, Nat.digitChar x = '0' → x = 0 := by decide
    exact this d hd10 (by assumption)
  have hv := digitsVal_digitsRevFuel n n le_rfl
  rw [hdig, hdzero] at hv
  simp [digitsVal] at hv
  omega

lemma jsNatToString_inj (a b : ℕ) (h : jsNatToString a = jsNatToString b) :
    a = b := by
  by_cases ha : a = 0
  · subst ha
    have : jsNatToString b = "0" := by rw [← h]; rfl
    exact (jsNatToString_eq_zero_str b this).symm
  · by_cases hb : b = 0
    · subst hb
      have : jsNatToString a = "0" := by rw [h]; rfl
      exact jsNatToString_eq_zero_str a this
    · have hd := congrArg String.data h
      rw [jsNatToString_data a ha, jsNatToString_data b hb] at hd
      have hmap := List.reverse_injective hd
      have hdig := map_digitChar_inj _ _
        (fun d hd2 => digitsRevFuel_lt_ten a a d hd2)
        (fun d hd2 => digitsRevFuel_lt_ten b b d hd2) hmap
      have hva := digitsVal_digitsRevFuel a a le_rfl
      have hvb := digitsVal_digitsRevFuel b b le_rfl
      rw [← hva, ← hvb, hdig]

/-- Decoder of a two-character decimal string, used to invert `pad2` on
values below 100. -/
def dec2 (s : String) : ℕ :=
  match s.data with
  | [c, d] => (c.toNat - 48) * 10 + (d.toNat - 48)
  | _ => 0

lemma dec2_pad2 : ∀ n < 100, dec2 (pad2 n) = n := by decide

lemma pad2_length_two : ∀ n < 100, (pad2 n).length = 2 := by decide

lemma pad2_of_ge100 (n : ℕ) (h : 100 ≤ n) : pad2 n = jsNatToString n := by
  unfold pad2 padStart2
  rw [if_neg]
  have := three_le_jsNatToString_length n h
  omega

lemma pad2_inj (a b : ℕ) (h : pad2 a = pad2 b) : a = b := by
  by_cases ha : a < 100 <;> by_cases hb : b < 100
  · have h1 := dec2_pad2 a ha
    rw [h, dec2_pad2 b hb] at h1
    exact h1.symm
  · exfalso
    have h1 := pad2_length_two a ha
    rw [h, pad2_of_ge100 b (by omega)] at h1
    have := three_le_jsNatToString_length b (by omega)
    omega
  · exfalso
    have h1 := pad2_length_two b hb
    rw [← h, pad2_of_ge100 a (by omega)] at h1
    have := three_le_jsNatToString_length a (by omega)
    omega
  · rw [pad2_of_ge100 a (by omega), pad2_of_ge100 b (by omega)] at h
    exact jsNatToString_inj a b h

lemma clampSeconds_natCast (n : ℕ) : clampSeconds (n : ℚ) = max 30 n := by
  unfold clampSeconds jsRound
  rw [show ((n : ℚ) + 1/2) = ((1 : ℚ)/2 + ((n : ℤ) : ℚ)) by push_cast; ring,
    Int.floor_add_int]
  norm_num
  omega

lemma string_append_data (s t : String) : (s ++ t).data = s.data ++ t.data := rfl

lemma string_length_data (s : String) : s.length = s.data.length := rfl

lemma formatSeconds_inj_on (a b : ℕ) (ha : 30 ≤ a) (hb : 30 ≤ b)
    (h : formatSeconds (a : ℚ) = formatSeconds (b : ℚ)) : a = b := by
  have hca : clampSeconds (a : ℚ) = a := by rw [clampSeconds_natCast]; omega
  have hcb : clampSeconds (b : ℚ) = b := by rw [clampSeconds_natCast]; omega
  unfold formatSeconds at h
  rw [hca, hcb] at h
  have hd := congrArg String.data h
  simp only [string_append_data, List.append_assoc,
    show (":" : String).data = [':'] from rfl] at hd
  have hm2a : (pad2 (minutesOf a)).data.length = 2 := by
    rw [← string_length_data]
    exact pad2_length_two (minutesOf a) (by unfold minutesOf; omega)
  have hm2b : (pad2 (minutesOf b)).data.length = 2 := by
    rw [← string_length_data]
    exact pad2_length_two (minutesOf b) (by unfold minutesOf; omega)
  have hs2a : (pad2 (secondsOf a)).data.length = 2 := by
    rw [← string_length_data]
    exact pad2_length_two (secondsOf a) (by unfold secondsOf; omega)
  have hs2b : (pad2 (secondsOf b)).data.length = 2 := by
    rw [← string_length_data]
    exact pad2_length_two (secondsOf b) (by unfold secondsOf; omega)
  have hlen : (pad2 (hoursOf a)).data.length = (pad2 (hoursOf b)).data.length := by
    have hl := congrArg List.length hd
    simp only [List.length_append, List.length_cons, List.length_nil] at hl
    omega
  obtain ⟨hH, hrest⟩ := List.append_inj hd hlen
  simp only [List.cons_append, List.nil_append, List.cons.injEq, true_and] at hrest
  obtain ⟨hM, hrest2⟩ := List.append_inj hrest (by rw [hm2a, hm2b])
  simp only [List.cons_append, List.nil_append, List.cons.injEq, true_and] at hrest2
  have h1 := pad2_inj _ _ (string_eq_of_data hH)
  have h2 := pad2_inj _ _ (string_eq_of_data hM)
  have h3 := pad2_inj _ _ (string_eq_of_data hrest2)
  unfold hoursOf at h1
  unfold minutesOf at h2
  unfold secondsOf at h3
  omega

/-- Claim C5: `formatSeconds` first takes `max(30, round(s))`, decomposes
that integer into hours, minutes and seconds, and renders them
colon-separated with each field zero-padded to width 2 and no upper
bound on the hour field (an hour count of 100 or more keeps all its
digits, unpadded and unwrapped); the five cited example values hold. -/
theorem formatSeconds_contract :
    (∀ s : ℚ, formatSeconds s = formatDurationSpec s) ∧
    formatSeconds 3600 = "01:00:00" ∧ formatSeconds 90 = "00:01:30" ∧
    formatSeconds 30 = "00:00:30" ∧ formatSeconds 3661 = "01:01:01" ∧
    formatSeconds 29 = "00:00:30" ∧
    (∀ s : ℚ, 100 ≤ hoursOf (clampSeconds s) →
      pad2 (hoursOf (clampSeconds s)) =
          jsNatToString (hoursOf (clampSeconds s)) ∧
        3 ≤ (jsNatToString (hoursOf (clampSeconds s))).length) := by
  refine ⟨?_, by with_unfolding_all decide, by with_unfolding_all decide,
    by with_unfolding_all decide, by with_unfolding_all decide,
    by with_unfolding_all decide, ?_⟩
  · intro s
    simp only [formatSeconds, formatDurationSpec, clampSeconds, hoursOf,
      minutesOf, secondsOf]
    rw [show (max 30 (jsRound s)).toNat % 3600 / 60 =
      (max 30 (jsRound s)).toNat / 60 % 60 from by omega]
  · intro s h
    exact ⟨pad2_of_ge100 _ h, three_le_jsNatToString_length _ h⟩

theorem formatSeconds_contract_witness :
    100 ≤ hoursOf (clampSeconds (360000 : ℚ)) ∧
      (pad2 (hoursOf (clampSeconds (360000 : ℚ))) =
          jsNatToString (hoursOf (clampSeconds (360000 : ℚ))) ∧
        3 ≤ (jsNatToString (hoursOf (clampSeconds (360000 : ℚ)))).length) :=
  ⟨by with_unfolding_all decide,
    formatSeconds_contract.2.2.2.2.2.2 360000 (by with_unfolding_all decide)⟩

/-- Claim C10: writing the formatted duration's fields as H, M, S — the
hours, minutes and seconds the formatter computes from the clamped
value — M and S lie in [0, 59] and `H·3600 + M·60 + S` recovers
`max(30, round(s))` exactly; consequently the formatter is injective on
integer second counts ≥ 30. -/
theorem formatSeconds_lossless :
    (∀ s : ℚ, minutesOf (clampSeconds s) ≤ 59 ∧
      secondsOf (clampSeconds s) ≤ 59 ∧
      hoursOf (clampSeconds s) * 3600 + minutesOf (clampSeconds s) * 60 +
        secondsOf (clampSeconds s) = clampSeconds s ∧
      (clampSeconds s : ℤ) = max 30 (jsRound s)) ∧
    (∀ a b : ℕ, 30 ≤ a → 30 ≤ b →
      formatSeconds (a : ℚ) = formatSeconds (b : ℚ) → a = b) := by
  constructor
  · intro s
    refine ⟨?_, ?_, ?_, ?_⟩
    · unfold minutesOf; omega
    · unfold secondsOf; omega
    · unfold hoursOf minutesOf secondsOf; omega
    · unfold clampSeconds
      rw [Int.toNat_of_nonneg]
      exact le_trans (by norm_num) (le_max_left 30 (jsRound s))
  · exact formatSeconds_inj_on

theorem formatSeconds_lossless_witness :
    (30 : ℕ) ≤ 3700 ∧
      formatSeconds ((3700 : ℕ) : ℚ) = formatSeconds ((3700 : ℕ) : ℚ) ∧
      (3700 : ℕ) = 3700 :=
  ⟨by norm_num, rfl,
    formatSeconds_lossless.2 3700 3700 (by norm_num) (by norm_num) rfl⟩
